import Mathlib

/-!
Shallow embedding of the configuration core of the repository
(src/src/config.rs): the TOML settings store (struct Config, fn
parse_config, Config::new, Config::setup_from, Config::write) and the
YAML overlay engine (struct MihomoYamlConfig, fn apply_mihomo_override).

Modelling conventions:
- YAML and TOML documents are modelled as ordered association lists of
  key and value pairs; nested values are trees (YamlValue, TomlValue).
- serde (de)serialization of the two structs is modelled at the value
  level: the text layer of the serde_yaml and toml crates is third party
  library code, while the field routing, renaming, alias handling,
  option skipping and enum wire representation declared in config.rs are
  modelled faithfully.
- The catch-all field MihomoYamlConfig.extra is a std HashMap in the
  source; a HashMap does not record insertion order and iterates in an
  unspecified order that differs per map instance.  Two renderings are
  used.  The executable serializer (MihomoYamlConfig.toDoc) re-emits
  the extra entries sorted by key, a fixed deterministic stand-in that
  is adequate for order-insensitive properties (key sets, per-key
  values).  Any property that would itself be about the emission order
  is settled against overlayRuns, the relation that emits the declared
  fields deterministically and then the extra entries in an arbitrary
  arrangement, because the real map guarantees no particular order.
- Duplicate keys in a mapping are rejected at parse time (as the toml
  crate and serde_yaml do for duplicate keys, and serde for duplicate
  fields).
- Filesystem state is passed explicitly: a value of type Option D is
  the content of the file at the relevant path (none when the file does
  not exist).
-/

/-- A YAML value as exposed by serde_yaml (floats omitted: the modelled
code never produces one and no claim involves one). -/
inductive YamlValue where
  | null
  | bool (b : Bool)
  | int (n : Int)
  | str (s : String)
  | seq (xs : List YamlValue)
  | map (entries : List (String × YamlValue))

/-- A YAML mapping document: top level keys with their values, in
document order. -/
abbrev YamlDoc := List (String × YamlValue)

/-- First-occurrence lookup in an association list (the lookup
discipline of serde map visiting and of HashMap queries on documents
without duplicate keys). -/
def lookupKey (k : String) : List (String × β) → Option β
  | [] => none
  | (k₂, v) :: rest => if k₂ = k then some v else lookupKey k rest

/-- Emit nothing when the option is absent, one pair when present
(serde skip_serializing_if Option.is_none, and the toml crate dropping
none valued fields). -/
def optPair (name : String) (enc : α → β) : Option α → List (String × β)
  | none => []
  | some x => [(name, enc x)]

/-- Emit the pair always, with a designated stand-in value when the
option is absent (a serde Option field without skip_serializing_if
serializes none as null). -/
def reqPair (name : String) (nullValue : β) (enc : α → β) : Option α → List (String × β)
  | none => [(name, nullValue)]
  | some x => [(name, enc x)]

/-- Lexicographic order on lists of naturals, as a boolean. -/
def natListLeb : List Nat → List Nat → Bool
  | [], _ => true
  | _ :: _, [] => false
  | x :: xs, y :: ys => if x < y then true else if y < x then false else natListLeb xs ys

/-- Total boolean order on strings (lexicographic on character codes),
used only to model the unspecified HashMap iteration order
deterministically. -/
def strLeb (a b : String) : Bool :=
  natListLeb (a.data.map Char.toNat) (b.data.map Char.toNat)

/-- Insert one pair into a key-sorted association list. -/
def insertByKey (p : String × β) : List (String × β) → List (String × β)
  | [] => [p]
  | q :: rest => if strLeb p.1 q.1 then p :: q :: rest else q :: insertByKey p rest

/-- Sort an association list by key (insertion sort).  Deterministic
stand-in for the unspecified iteration order of the std HashMap that
holds the extra fields in the source. -/
def sortByKey : List (String × β) → List (String × β)
  | [] => []
  | p :: rest => insertByKey p (sortByKey rest)

/-- enum MihomoMode from config.rs. -/
inductive MihomoMode where
  | Global
  | Rule
  | Direct
deriving DecidableEq

/-- Wire string each MihomoMode variant serializes to:
rename(serialize = ...) in config.rs. -/
def MihomoMode.toWire : MihomoMode → String
  | .Global => "global"
  | .Rule => "rule"
  | .Direct => "direct"

/-- Strings serde accepts when deserializing MihomoMode: for each
variant, the Rust variant name itself plus the declared alias
(rename(serialize = ...) does not change the deserialization name). -/
def MihomoMode.fromWire (s : String) : Option MihomoMode :=
  if s = "Global" ∨ s = "global" then some .Global
  else if s = "Rule" ∨ s = "rule" then some .Rule
  else if s = "Direct" ∨ s = "direct" then some .Direct
  else none

/-- enum MihomoLogLevel from config.rs. -/
inductive MihomoLogLevel where
  | Silent
  | Error
  | Warning
  | Info
  | Debug
deriving DecidableEq

/-- Wire string each MihomoLogLevel variant serializes to. -/
def MihomoLogLevel.toWire : MihomoLogLevel → String
  | .Silent => "silent"
  | .Error => "error"
  | .Warning => "warning"
  | .Info => "info"
  | .Debug => "debug"

/-- Strings serde accepts when deserializing MihomoLogLevel: variant
name or declared alias. -/
def MihomoLogLevel.fromWire (s : String) : Option MihomoLogLevel :=
  if s = "Silent" ∨ s = "silent" then some .Silent
  else if s = "Error" ∨ s = "error" then some .Error
  else if s = "Warning" ∨ s = "warning" then some .Warning
  else if s = "Info" ∨ s = "info" then some .Info
  else if s = "Debug" ∨ s = "debug" then some .Debug
  else none

/-- struct MihomoConfig from config.rs (the override fields inside the
settings file).  The u16 ports are modelled as Nat; theorems that need
the u16 range state it as a hypothesis. -/
structure MihomoConfig where
  port : Nat
  socks_port : Nat
  allow_lan : Option Bool
  bind_address : Option String
  mode : MihomoMode
  log_level : MihomoLogLevel
  ipv6 : Option Bool
  external_controller : Option String
  external_ui : Option String
  secret : Option String

/-- struct Config from config.rs (the settings file). -/
structure Config where
  remote_mihomo_binary_url : String
  remote_config_url : String
  mihomo_binary_path : String
  mihomo_config_root : String
  user_systemd_root : String
  mihomo_config : MihomoConfig

/-- Config::new from config.rs: the hard coded default settings. -/
def Config.new : Config :=
  { remote_mihomo_binary_url := ""
    remote_config_url := ""
    mihomo_binary_path := "~/.local/bin/mihomo"
    mihomo_config_root := "~/.config/mihomo"
    user_systemd_root := "~/.config/systemd/user"
    mihomo_config :=
      { port := 7890
        socks_port := 7891
        allow_lan := some false
        bind_address := some "*"
        mode := .Rule
        log_level := .Info
        ipv6 := some true
        external_controller := some "0.0.0.0:9090"
        external_ui := some "ui"
        secret := none } }

/-- struct MihomoYamlConfig from config.rs: typed slots for the
recognized fields of the remote YAML document plus the flattened
catch-all for every other top level key. -/
structure MihomoYamlConfig where
  port : Option Nat
  socks_port : Option Nat
  allow_lan : Option Bool
  bind_address : Option String
  mode : Option MihomoMode
  log_level : Option MihomoLogLevel
  ipv6 : Option Bool
  external_controller : Option String
  external_ui : Option String
  secret : Option String
  extra : YamlDoc

/-- The all-absent MihomoYamlConfig a parse starts from. -/
def emptyYaml : MihomoYamlConfig :=
  { port := none, socks_port := none, allow_lan := none, bind_address := none
    mode := none, log_level := none, ipv6 := none, external_controller := none
    external_ui := none, secret := none, extra := [] }

/-- The top level YAML keys config.rs declares on MihomoYamlConfig
(with their serde renames). -/
def recognizedKeys : List String :=
  ["port", "socks-port", "allow-lan", "bind-address", "mode", "log-level",
   "ipv6", "external-controller", "external-ui", "secret"]

/-- Deserialize an optional u16 field: absent slot handled elsewhere,
null maps to none, an integer must fit in u16, anything else is a type
mismatch. -/
def decodeOptU16 : YamlValue → Except String (Option Nat)
  | .null => .ok none
  | .int n => if 0 ≤ n ∧ n < 65536 then .ok (some n.toNat) else .error "integer out of range for u16"
  | _ => .error "invalid type: expected u16"

/-- Deserialize an optional bool field. -/
def decodeOptBool : YamlValue → Except String (Option Bool)
  | .null => .ok none
  | .bool b => .ok (some b)
  | _ => .error "invalid type: expected bool"

/-- Deserialize an optional string field. -/
def decodeOptStr : YamlValue → Except String (Option String)
  | .null => .ok none
  | .str s => .ok (some s)
  | _ => .error "invalid type: expected string"

/-- Deserialize an optional MihomoMode field; an unknown string reports
the raw value. -/
def decodeOptMode : YamlValue → Except String (Option MihomoMode)
  | .null => .ok none
  | .str s =>
    match MihomoMode.fromWire s with
    | some m => .ok (some m)
    | none => .error ("unknown variant " ++ s)
  | _ => .error "invalid type: expected string"

/-- Deserialize an optional MihomoLogLevel field; an unknown string
reports the raw value. -/
def decodeOptLogLevel : YamlValue → Except String (Option MihomoLogLevel)
  | .null => .ok none
  | .str s =>
    match MihomoLogLevel.fromWire s with
    | some l => .ok (some l)
    | none => .error ("unknown variant " ++ s)
  | _ => .error "invalid type: expected string"

/-- Route one top level key of the remote document: a recognized key is
decoded into its typed slot, any other key is appended to the catch-all
in encounter order. -/
def decodeField (acc : MihomoYamlConfig) (k : String) (v : YamlValue) :
    Except String MihomoYamlConfig :=
  if k = "port" then (decodeOptU16 v).map (fun x => { acc with port := x })
  else if k = "socks-port" then (decodeOptU16 v).map (fun x => { acc with socks_port := x })
  else if k = "allow-lan" then (decodeOptBool v).map (fun x => { acc with allow_lan := x })
  else if k = "bind-address" then (decodeOptStr v).map (fun x => { acc with bind_address := x })
  else if k = "mode" then (decodeOptMode v).map (fun x => { acc with mode := x })
  else if k = "log-level" then (decodeOptLogLevel v).map (fun x => { acc with log_level := x })
  else if k = "ipv6" then (decodeOptBool v).map (fun x => { acc with ipv6 := x })
  else if k = "external-controller" then (decodeOptStr v).map (fun x => { acc with external_controller := x })
  else if k = "external-ui" then (decodeOptStr v).map (fun x => { acc with external_ui := x })
  else if k = "secret" then (decodeOptStr v).map (fun x => { acc with secret := x })
  else .ok { acc with extra := acc.extra ++ [(k, v)] }

/-- Fold decodeField over the document. -/
def fromDocAux (acc : MihomoYamlConfig) : YamlDoc → Except String MihomoYamlConfig
  | [] => .ok acc
  | (k, v) :: rest =>
    match decodeField acc k v with
    | .error e => .error e
    | .ok acc₂ => fromDocAux acc₂ rest

/-- serde_yaml deserialization of MihomoYamlConfig from a parsed top
level mapping: duplicate keys are rejected, recognized keys fill the
typed slots, the rest goes into the catch-all. -/
def MihomoYamlConfig.fromDoc (d : YamlDoc) : Except String MihomoYamlConfig :=
  if (d.map Prod.fst).Nodup then fromDocAux emptyYaml d
  else .error "duplicate key in mapping"

/-- The field assignments of apply_mihomo_override in config.rs: every
typed slot is overwritten from the override config, the catch-all is
untouched. -/
def apply_override (y : MihomoYamlConfig) (c : MihomoConfig) : MihomoYamlConfig :=
  { y with
    port := some c.port
    socks_port := some c.socks_port
    allow_lan := c.allow_lan
    bind_address := c.bind_address
    mode := some c.mode
    log_level := some c.log_level
    ipv6 := c.ipv6
    external_controller := c.external_controller
    external_ui := c.external_ui
    secret := c.secret }

/-- The declared-field part of the serialization of MihomoYamlConfig:
fields in declaration order, optional ones skipped when absent, the
four fields without skip_serializing_if emitted as null when absent. -/
def MihomoYamlConfig.knownDoc (y : MihomoYamlConfig) : YamlDoc :=
  reqPair "port" YamlValue.null (fun n : Nat => YamlValue.int n) y.port
  ++ reqPair "socks-port" YamlValue.null (fun n : Nat => YamlValue.int n) y.socks_port
  ++ optPair "allow-lan" YamlValue.bool y.allow_lan
  ++ optPair "bind-address" YamlValue.str y.bind_address
  ++ reqPair "mode" YamlValue.null (fun m => YamlValue.str m.toWire) y.mode
  ++ reqPair "log-level" YamlValue.null (fun l => YamlValue.str l.toWire) y.log_level
  ++ optPair "ipv6" YamlValue.bool y.ipv6
  ++ optPair "external-controller" YamlValue.str y.external_controller
  ++ optPair "external-ui" YamlValue.str y.external_ui
  ++ optPair "secret" YamlValue.str y.secret

/-- serde_yaml serialization of MihomoYamlConfig: the declared fields,
then the flattened catch-all entries in the modelled HashMap order. -/
def MihomoYamlConfig.toDoc (y : MihomoYamlConfig) : YamlDoc :=
  y.knownDoc ++ sortByKey y.extra

/-- The pure document transformation performed by apply_mihomo_override:
parse the remote document, overwrite the recognized fields, serialize. -/
def apply_mihomo_override_doc (d : YamlDoc) (c : MihomoConfig) : Except String YamlDoc :=
  (MihomoYamlConfig.fromDoc d).map (fun y => (apply_override y c).toDoc)

/-- apply_mihomo_override with the file at the target path passed as
explicit state: read (fails when the file is missing), parse, mutate in
memory, serialize in memory, then write as the single state change. -/
def apply_mihomo_override (fs : Option YamlDoc) (c : MihomoConfig) :
    Option YamlDoc × Except String Unit :=
  match fs with
  | none => (none, .error "io error: cannot read remote config")
  | some d =>
    match apply_mihomo_override_doc d c with
    | .error e => (some d, .error e)
    | .ok out => (some out, .ok ())

/-- The unrecognized top level keys of a document, in document order. -/
def unrecognizedKeysOf (d : YamlDoc) : List String :=
  (d.filter (fun p => p.1 ∉ recognizedKeys)).map Prod.fst

/-- A TOML value (dates and floats omitted: the settings schema uses
strings, integers, booleans and one nested table). -/
inductive TomlValue where
  | str (s : String)
  | int (n : Int)
  | bool (b : Bool)
  | arr (xs : List TomlValue)
  | table (entries : List (String × TomlValue))

/-- The top level keys declared on struct Config. -/
def configKeys : List String :=
  ["remote_mihomo_binary_url", "remote_config_url", "mihomo_binary_path",
   "mihomo_config_root", "user_systemd_root", "mihomo_config"]

/-- The keys declared on struct MihomoConfig (underscore naming: no
serde renames in the settings schema). -/
def mihomoKeys : List String :=
  ["port", "socks_port", "allow_lan", "bind_address", "mode", "log_level",
   "ipv6", "external_controller", "external_ui", "secret"]

/-- Decode a required string field of a TOML table. -/
def getStr : Option TomlValue → Except String String
  | some (.str s) => .ok s
  | some _ => .error "invalid type: expected string"
  | none => .error "missing field"

/-- Decode a required u16 field of a TOML table. -/
def getU16 : Option TomlValue → Except String Nat
  | some (.int n) =>
    if 0 ≤ n ∧ n < 65536 then .ok n.toNat else .error "integer out of range for u16"
  | some _ => .error "invalid type: expected integer"
  | none => .error "missing field"

/-- Decode an optional bool field of a TOML table (absent means none). -/
def getOptBool : Option TomlValue → Except String (Option Bool)
  | none => .ok none
  | some (.bool b) => .ok (some b)
  | some _ => .error "invalid type: expected bool"

/-- Decode an optional string field of a TOML table (absent means none). -/
def getOptStr : Option TomlValue → Except String (Option String)
  | none => .ok none
  | some (.str s) => .ok (some s)
  | some _ => .error "invalid type: expected string"

/-- Decode a required MihomoMode field; an unknown string reports the
raw value. -/
def getMode : Option TomlValue → Except String MihomoMode
  | some (.str s) =>
    match MihomoMode.fromWire s with
    | some m => .ok m
    | none => .error ("unknown variant " ++ s)
  | some _ => .error "invalid type: expected string"
  | none => .error "missing field"

/-- Decode a required MihomoLogLevel field; an unknown string reports
the raw value. -/
def getLogLevel : Option TomlValue → Except String MihomoLogLevel
  | some (.str s) =>
    match MihomoLogLevel.fromWire s with
    | some l => .ok l
    | none => .error ("unknown variant " ++ s)
  | some _ => .error "invalid type: expected string"
  | none => .error "missing field"

/-- serde deserialization of MihomoConfig from a TOML table: declared
fields are looked up by name, undeclared keys are ignored (no
deny_unknown_fields on the struct), duplicate keys never reach serde
because the toml crate rejects them. -/
def decodeMihomoConfig : TomlValue → Except String MihomoConfig
  | .table m =>
    if (m.map Prod.fst).Nodup then do
      let port ← getU16 (lookupKey "port" m)
      let socks_port ← getU16 (lookupKey "socks_port" m)
      let allow_lan ← getOptBool (lookupKey "allow_lan" m)
      let bind_address ← getOptStr (lookupKey "bind_address" m)
      let mode ← getMode (lookupKey "mode" m)
      let log_level ← getLogLevel (lookupKey "log_level" m)
      let ipv6 ← getOptBool (lookupKey "ipv6" m)
      let external_controller ← getOptStr (lookupKey "external_controller" m)
      let external_ui ← getOptStr (lookupKey "external_ui" m)
      let secret ← getOptStr (lookupKey "secret" m)
      .ok { port, socks_port, allow_lan, bind_address, mode, log_level,
            ipv6, external_controller, external_ui, secret }
    else .error "duplicate key in table"
  | _ => .error "invalid type: expected table"

/-- Decode the required daemon_config table field. -/
def getMihomoTable : Option TomlValue → Except String MihomoConfig
  | some t => decodeMihomoConfig t
  | none => .error "missing field mihomo_config"

/-- serde deserialization of Config from a TOML document (the body of
Config::setup_from after the text has been parsed into a table). -/
def decodeConfig : TomlValue → Except String Config
  | .table m =>
    if (m.map Prod.fst).Nodup then do
      let remote_mihomo_binary_url ← getStr (lookupKey "remote_mihomo_binary_url" m)
      let remote_config_url ← getStr (lookupKey "remote_config_url" m)
      let mihomo_binary_path ← getStr (lookupKey "mihomo_binary_path" m)
      let mihomo_config_root ← getStr (lookupKey "mihomo_config_root" m)
      let user_systemd_root ← getStr (lookupKey "user_systemd_root" m)
      let mihomo_config ← getMihomoTable (lookupKey "mihomo_config" m)
      .ok { remote_mihomo_binary_url, remote_config_url, mihomo_binary_path,
            mihomo_config_root, user_systemd_root, mihomo_config }
    else .error "duplicate key in table"
  | _ => .error "invalid type: expected table"

/-- serde serialization of MihomoConfig to a TOML table: declared
fields in declaration order, none valued optional fields dropped (the
toml crate skips none). -/
def encodeMihomoConfig (c : MihomoConfig) : List (String × TomlValue) :=
  [("port", TomlValue.int c.port), ("socks_port", TomlValue.int c.socks_port)]
  ++ optPair "allow_lan" TomlValue.bool c.allow_lan
  ++ optPair "bind_address" TomlValue.str c.bind_address
  ++ [("mode", TomlValue.str c.mode.toWire), ("log_level", TomlValue.str c.log_level.toWire)]
  ++ optPair "ipv6" TomlValue.bool c.ipv6
  ++ optPair "external_controller" TomlValue.str c.external_controller
  ++ optPair "external_ui" TomlValue.str c.external_ui
  ++ optPair "secret" TomlValue.str c.secret

/-- serde serialization of Config to a TOML document (the body of
Config::write before the text is produced). -/
def encodeConfig (c : Config) : List (String × TomlValue) :=
  [("remote_mihomo_binary_url", TomlValue.str c.remote_mihomo_binary_url),
   ("remote_config_url", TomlValue.str c.remote_config_url),
   ("mihomo_binary_path", TomlValue.str c.mihomo_binary_path),
   ("mihomo_config_root", TomlValue.str c.mihomo_config_root),
   ("user_systemd_root", TomlValue.str c.user_systemd_root),
   ("mihomo_config", TomlValue.table (encodeMihomoConfig c.mihomo_config))]

/-- The required field list of parse_config, in the order the source
checks them. -/
def required_urls (c : Config) : List (String × String) :=
  [("remote_config_url", c.remote_config_url),
   ("mihomo_binary_path", c.mihomo_binary_path),
   ("mihomo_config_root", c.mihomo_config_root),
   ("user_systemd_root", c.user_systemd_root)]

/-- The error outcomes of parse_config.  In the source all three are
anyhow errors distinguished by their messages: the bootstrap bail
(created default config, run again to finish setup), the propagated
parse failure, and the bail naming the first undefined required field. -/
inductive ConfigError where
  | bootstrapCreated
  | parseFailed (msg : String)
  | validationFailed (field : String)
deriving DecidableEq

/-- parse_config from config.rs, with the settings file passed as
explicit state: when the file is missing, write the defaults and fail
with the bootstrap error; otherwise parse, then bail on the first empty
required field in check order. -/
def parse_config (fs : Option TomlValue) : Option TomlValue × Except ConfigError Config :=
  match fs with
  | none => (some (.table (encodeConfig Config.new)), .error .bootstrapCreated)
  | some t =>
    match decodeConfig t with
    | .error e => (some t, .error (.parseFailed e))
    | .ok c =>
      match (required_urls c).find? (fun p => p.2 == "") with
      | some p => (some t, .error (.validationFailed p.1))
      | none => (some t, .ok c)

/-- The result shape of apply_override: every typed slot taken from the
override config, together with a given catch-all. -/
def overrideYaml (c : MihomoConfig) (e : YamlDoc) : MihomoYamlConfig :=
  { port := some c.port
    socks_port := some c.socks_port
    allow_lan := c.allow_lan
    bind_address := c.bind_address
    mode := some c.mode
    log_level := some c.log_level
    ipv6 := c.ipv6
    external_controller := c.external_controller
    external_ui := c.external_ui
    secret := c.secret
    extra := e }

/-- The declared top level entries of a settings document for a given
Config, with undeclared extra keys added inside the daemon_config table. -/
def settingsKnownList (c : Config) (eIn : List (String × TomlValue)) :
    List (String × TomlValue) :=
  [("remote_mihomo_binary_url", TomlValue.str c.remote_mihomo_binary_url),
   ("remote_config_url", TomlValue.str c.remote_config_url),
   ("mihomo_binary_path", TomlValue.str c.mihomo_binary_path),
   ("mihomo_config_root", TomlValue.str c.mihomo_config_root),
   ("user_systemd_root", TomlValue.str c.user_systemd_root),
   ("mihomo_config", TomlValue.table (encodeMihomoConfig c.mihomo_config ++ eIn))]

/-- A TOML settings document for a given Config with undeclared extra
keys added inside the daemon_config table and at top level. -/
def settingsDocWithExtras (c : Config) (eIn eTop : List (String × TomlValue)) : TomlValue :=
  .table (settingsKnownList c eIn ++ eTop)

/-- A concrete override configuration used by witnesses. -/
def exCfg : MihomoConfig :=
  { port := 7890
    socks_port := 7891
    allow_lan := some false
    bind_address := none
    mode := .Rule
    log_level := .Info
    ipv6 := none
    external_controller := some "0.0.0.0:9090"
    external_ui := none
    secret := none }

/-- A concrete remote document used by witnesses: two unrecognized keys
in anti-alphabetical order, one recognized key present with a value the
overrides will replace, and one optional recognized key present whose
override is absent. -/
def exDoc : YamlDoc :=
  [("zz", .seq [.str "a", .int 3]), ("port", .int 1000), ("ipv6", .bool true),
   ("aa", .map [("k", .str "v")])]

/-- A concrete remote document whose recognized field port has a non
integer value, so parsing fails. -/
def exBadDoc : YamlDoc :=
  [("port", .str "not-a-number")]

/-- The document produced by applying exCfg to exDoc. -/
def exOut : YamlDoc :=
  [("port", .int 7890), ("socks-port", .int 7891), ("allow-lan", .bool false),
   ("mode", .str "rule"), ("log-level", .str "info"),
   ("external-controller", .str "0.0.0.0:9090"),
   ("aa", .map [("k", .str "v")]), ("zz", .seq [.str "a", .int 3])]

/-- One possible run of the overlay on an in-memory document: serde
parses the document, the overrides are applied, and serialization
emits the declared fields in declaration order followed by the
catch-all entries in SOME arrangement — the std HashMap that holds
them iterates in an unspecified order that differs per map instance,
so the code guarantees no particular arrangement of those entries. -/
def overlayRuns (d : YamlDoc) (c : MihomoConfig) (out : YamlDoc) : Prop :=
  ∃ y e₂, MihomoYamlConfig.fromDoc d = .ok y ∧
    List.Perm e₂ (apply_override y c).extra ∧
    out = (apply_override y c).knownDoc ++ e₂

/-- The parse of exDoc. -/
def exParsed : MihomoYamlConfig :=
  { port := some 1000, socks_port := none, allow_lan := none, bind_address := none
    mode := none, log_level := none, ipv6 := some true, external_controller := none
    external_ui := none, secret := none
    extra := [("zz", .seq [.str "a", .int 3]), ("aa", .map [("k", .str "v")])] }

/-- The parse of exOut. -/
def exParsedOut : MihomoYamlConfig :=
  { port := some 7890, socks_port := some 7891, allow_lan := some false
    bind_address := none, mode := some .Rule, log_level := some .Info, ipv6 := none
    external_controller := some "0.0.0.0:9090", external_ui := none, secret := none
    extra := [("aa", .map [("k", .str "v")]), ("zz", .seq [.str "a", .int 3])] }

/-- exOut with its two unrecognized entries emitted in the opposite
arrangement: another possible output of the same overlay run. -/
def exOutSwapped : YamlDoc :=
  [("port", .int 7890), ("socks-port", .int 7891), ("allow-lan", .bool false),
   ("mode", .str "rule"), ("log-level", .str "info"),
   ("external-controller", .str "0.0.0.0:9090"),
   ("zz", .seq [.str "a", .int 3]), ("aa", .map [("k", .str "v")])]

/-- Sortedness by key under the modelled order. -/
def KeySorted (l : List (String × β)) : Prop :=
  l.Pairwise (fun a b => strLeb a.1 b.1 = true)

theorem lookupKey_cons (k k₂ : String) (v : β) (l : List (String × β)) :
    lookupKey k ((k₂, v) :: l) = if k₂ = k then some v else lookupKey k l := rfl

theorem orElse_none_right (o : Option β) : (o.orElse fun _ => none) = o := by
  cases o <;> rfl

theorem lookupKey_append (k : String) (l₁ l₂ : List (String × β)) :
    lookupKey k (l₁ ++ l₂) = (lookupKey k l₁).orElse (fun _ => lookupKey k l₂) := by
  induction l₁ with
  | nil => rfl
  | cons p rest ih =>
    obtain ⟨k₂, v⟩ := p
    by_cases h : k₂ = k <;> simp [lookupKey_cons, h, ih, Option.orElse]

theorem lookupKey_eq_none (k : String) (l : List (String × β)) (h : ∀ p ∈ l, p.1 ≠ k) :
    lookupKey k l = none := by
  induction l with
  | nil => rfl
  | cons p rest ih =>
    obtain ⟨k₂, v⟩ := p
    rw [lookupKey_cons, if_neg (h (k₂, v) (List.mem_cons_self _ _))]
    exact ih fun q hq => h q (List.mem_cons_of_mem _ hq)

theorem lookupKey_optPair_ne {n k : String} (h : n ≠ k) (enc : α → β) (o : Option α) :
    lookupKey k (optPair n enc o) = none := by
  cases o <;> simp [optPair, lookupKey, h]

theorem lookupKey_reqPair_ne {n k : String} (h : n ≠ k) (nv : β) (enc : α → β) (o : Option α) :
    lookupKey k (reqPair n nv enc o) = none := by
  cases o <;> simp [reqPair, lookupKey, h]

theorem lookupKey_filter (k : String) (pr : String × β → Bool) (l : List (String × β))
    (h : ∀ q : String × β, q.1 = k → pr q = true) :
    lookupKey k (l.filter pr) = lookupKey k l := by
  induction l with
  | nil => rfl
  | cons p rest ih =>
    obtain ⟨k₂, v⟩ := p
    by_cases hk : k₂ = k
    · subst hk
      rw [List.filter_cons, if_pos (by simpa using h (k₂, v) rfl)]
      rw [lookupKey_cons, if_pos rfl, lookupKey_cons, if_pos rfl]
    · rw [List.filter_cons]
      cases hpr : pr (k₂, v) <;> simp [lookupKey_cons, hk, ih]

theorem insertByKey_perm (p : String × β) (l : List (String × β)) :
    List.Perm (insertByKey p l) (p :: l) := by
  induction l with
  | nil => exact List.Perm.refl _
  | cons q rest ih =>
    rw [insertByKey]
    by_cases h : strLeb p.1 q.1
    · rw [if_pos h]
    · rw [if_neg h]
      exact (List.Perm.cons q ih).trans (List.Perm.swap p q rest)

theorem sortByKey_perm (l : List (String × β)) : List.Perm (sortByKey l) l := by
  induction l with
  | nil => exact List.Perm.refl _
  | cons p rest ih =>
    exact (insertByKey_perm p (sortByKey rest)).trans (List.Perm.cons p ih)

theorem mem_sortByKey (q : String × β) (l : List (String × β)) :
    q ∈ sortByKey l ↔ q ∈ l :=
  (sortByKey_perm l).mem_iff

theorem mem_insertByKey (q p : String × β) (l : List (String × β)) :
    q ∈ insertByKey p l ↔ q = p ∨ q ∈ l := by
  rw [(insertByKey_perm p l).mem_iff, List.mem_cons]

theorem natListLeb_cons_iff (x y : Nat) (xs ys : List Nat) :
    natListLeb (x :: xs) (y :: ys) = true ↔
      (x < y ∨ (x = y ∧ natListLeb xs ys = true)) := by
  simp only [natListLeb]
  rcases lt_trichotomy x y with h | h | h
  · simp [h]
  · subst h
    simp [lt_irrefl]
  · rw [if_neg (by omega), if_pos h]
    simp
    omega

theorem natListLeb_total (xs ys : List Nat) :
    natListLeb xs ys = true ∨ natListLeb ys xs = true := by
  induction xs generalizing ys with
  | nil => left; rfl
  | cons x xs ih =>
    cases ys with
    | nil => right; rfl
    | cons y ys =>
      rw [natListLeb_cons_iff, natListLeb_cons_iff]
      rcases lt_trichotomy x y with h | h | h
      · left; left; exact h
      · subst h
        rcases ih ys with h₂ | h₂
        · left; right; exact ⟨rfl, h₂⟩
        · right; right; exact ⟨rfl, h₂⟩
      · right; left; exact h

theorem natListLeb_trans {xs ys zs : List Nat}
    (h₁ : natListLeb xs ys = true) (h₂ : natListLeb ys zs = true) :
    natListLeb xs zs = true := by
  induction xs generalizing ys zs with
  | nil => rfl
  | cons x xs ih =>
    cases ys with
    | nil => simp [natListLeb] at h₁
    | cons y ys =>
      cases zs with
      | nil => simp [natListLeb] at h₂
      | cons z zs =>
        rw [natListLeb_cons_iff] at h₁ h₂ ⊢
        rcases h₁ with h₁ | ⟨h₁, h₁t⟩ <;> rcases h₂ with h₂ | ⟨h₂, h₂t⟩
        · left; omega
        · left; omega
        · left; omega
        · right; exact ⟨by omega, ih h₁t h₂t⟩

theorem strLeb_total (a b : String) : strLeb a b = true ∨ strLeb b a = true :=
  natListLeb_total _ _

theorem strLeb_trans {a b c : String} (h₁ : strLeb a b = true) (h₂ : strLeb b c = true) :
    strLeb a c = true :=
  natListLeb_trans h₁ h₂

theorem keySorted_insertByKey {l : List (String × β)} (p : String × β)
    (h : KeySorted l) : KeySorted (insertByKey p l) := by
  induction l with
  | nil => simp [insertByKey, KeySorted]
  | cons q rest ih =>
    rw [KeySorted, List.pairwise_cons] at h
    obtain ⟨hq, hrest⟩ := h
    rw [insertByKey]
    by_cases hle : strLeb p.1 q.1
    · rw [if_pos hle]
      rw [KeySorted, List.pairwise_cons]
      refine ⟨?_, List.Pairwise.cons hq hrest⟩
      intro r hr
      rcases List.mem_cons.mp hr with rfl | hr
      · exact hle
      · exact strLeb_trans hle (hq r hr)
    · rw [if_neg hle]
      rw [KeySorted, List.pairwise_cons]
      refine ⟨?_, ih hrest⟩
      intro r hr
      rcases (mem_insertByKey r p rest).mp hr with hrp | hr
      · subst hrp
        rcases strLeb_total r.1 q.1 with ht | ht
        · exact absurd ht hle
        · exact ht
      · exact hq r hr

theorem keySorted_sortByKey (l : List (String × β)) : KeySorted (sortByKey l) := by
  induction l with
  | nil => exact List.Pairwise.nil
  | cons p rest ih => exact keySorted_insertByKey p ih

theorem insertByKey_of_le {l : List (String × β)} (p : String × β)
    (h : ∀ q ∈ l, strLeb p.1 q.1 = true) : insertByKey p l = p :: l := by
  cases l with
  | nil => rfl
  | cons q rest => rw [insertByKey, if_pos (h q (List.mem_cons_self _ _))]

theorem sortByKey_eq_of_sorted {l : List (String × β)} (h : KeySorted l) :
    sortByKey l = l := by
  induction l with
  | nil => rfl
  | cons p rest ih =>
    rw [KeySorted, List.pairwise_cons] at h
    obtain ⟨hp, hrest⟩ := h
    rw [sortByKey, ih hrest, insertByKey_of_le p hp]

theorem sortByKey_idem (l : List (String × β)) :
    sortByKey (sortByKey l) = sortByKey l :=
  sortByKey_eq_of_sorted (keySorted_sortByKey l)

theorem lookupKey_of_perm (k : String) {l₁ l₂ : List (String × β)} (h : List.Perm l₁ l₂) :
    (l₁.map Prod.fst).Nodup → lookupKey k l₁ = lookupKey k l₂ := by
  induction h with
  | nil => intro _; rfl
  | cons p hp ih =>
    intro hnd
    obtain ⟨k₂, v⟩ := p
    rw [lookupKey_cons, lookupKey_cons, ih (by simpa using hnd.of_cons)]
  | swap p q l =>
    intro hnd
    obtain ⟨k₁, v₁⟩ := p
    obtain ⟨k₂, v₂⟩ := q
    simp only [List.map_cons, List.nodup_cons, List.mem_cons] at hnd
    rw [lookupKey_cons, lookupKey_cons, lookupKey_cons, lookupKey_cons]
    by_cases h₁ : k₁ = k <;> by_cases h₂ : k₂ = k <;> simp [h₁, h₂]
    exact absurd (Or.inl (h₂.trans h₁.symm)) hnd.1
  | trans h₁ h₂ ih₁ ih₂ =>
    intro hnd
    rw [ih₁ hnd, ih₂ (((h₁.map Prod.fst).nodup_iff).mp hnd)]

theorem lookupKey_sortByKey (k : String) {l : List (String × β)}
    (hnd : (l.map Prod.fst).Nodup) : lookupKey k (sortByKey l) = lookupKey k l :=
  lookupKey_of_perm k (sortByKey_perm l)
    ((((sortByKey_perm l).map Prod.fst).nodup_iff).mpr hnd)

theorem except_map_ok {f : γ → δ} {e : Except String γ} {y : δ}
    (h : e.map f = .ok y) : ∃ x, e = .ok x ∧ y = f x := by
  cases e with
  | error a => simp [Except.map] at h
  | ok x => refine ⟨x, rfl, ?_⟩; simpa [Except.map] using h.symm

theorem decodeField_extra_of_recognized {acc acc₂ : MihomoYamlConfig} {k : String}
    {v : YamlValue} (hk : k ∈ recognizedKeys) (h : decodeField acc k v = .ok acc₂) :
    acc₂.extra = acc.extra := by
  simp only [recognizedKeys, List.mem_cons, List.not_mem_nil, or_false] at hk
  rcases hk with rfl | rfl | rfl | rfl | rfl | rfl | rfl | rfl | rfl | rfl <;>
    simp only [decodeField, if_true, if_false, reduceIte] at h <;>
    · obtain ⟨x, hx, rfl⟩ := except_map_ok h
      rfl

theorem decodeField_unrec {acc : MihomoYamlConfig} {k : String} {v : YamlValue}
    (hk : k ∉ recognizedKeys) :
    decodeField acc k v = .ok { acc with extra := acc.extra ++ [(k, v)] } := by
  simp only [recognizedKeys, List.mem_cons, List.not_mem_nil, or_false, not_or] at hk
  obtain ⟨h₁, h₂, h₃, h₄, h₅, h₆, h₇, h₈, h₉, h₁₀⟩ := hk
  simp [decodeField, h₁, h₂, h₃, h₄, h₅, h₆, h₇, h₈, h₉, h₁₀]

theorem fromDocAux_extra {d : YamlDoc} {acc y : MihomoYamlConfig}
    (h : fromDocAux acc d = .ok y) :
    y.extra = acc.extra ++ d.filter (fun p => p.1 ∉ recognizedKeys) := by
  induction d generalizing acc with
  | nil =>
    simp only [fromDocAux] at h
    cases h
    simp
  | cons p rest ih =>
    obtain ⟨k, v⟩ := p
    simp only [fromDocAux] at h
    cases hd : decodeField acc k v with
    | error e => rw [hd] at h; cases h
    | ok acc₂ =>
      rw [hd] at h
      by_cases hk : k ∈ recognizedKeys
      · rw [ih h, decodeField_extra_of_recognized hk hd, List.filter_cons,
          if_neg (by simpa using hk)]
      · have hacc := @decodeField_unrec acc k v hk
        rw [hd] at hacc
        cases hacc
        rw [ih h, List.filter_cons, if_pos (by simpa using hk)]
        simp

theorem fromDocAux_append (acc : MihomoYamlConfig) (l₁ l₂ : YamlDoc) :
    fromDocAux acc (l₁ ++ l₂) =
      match fromDocAux acc l₁ with
      | .ok acc₂ => fromDocAux acc₂ l₂
      | .error e => .error e := by
  induction l₁ generalizing acc with
  | nil => rfl
  | cons p rest ih =>
    obtain ⟨k, v⟩ := p
    simp only [List.cons_append, fromDocAux]
    cases decodeField acc k v <;> simp [ih]

theorem decodeOptU16_int {n : Nat} (h : n < 65536) :
    decodeOptU16 (YamlValue.int n) = .ok (some n) := by
  simp only [decodeOptU16]
  rw [if_pos ⟨Int.natCast_nonneg n, by exact_mod_cast h⟩]
  simp

theorem fromDocAux_cons_ok {acc acc₂ : MihomoYamlConfig} {k : String} {v : YamlValue}
    {rest : YamlDoc} (hd : decodeField acc k v = .ok acc₂) :
    fromDocAux acc ((k, v) :: rest) = fromDocAux acc₂ rest := by
  simp only [fromDocAux]
  rw [hd]

theorem fromDocAux_port {acc : MihomoYamlConfig} {rest : YamlDoc} {n : Nat}
    (h : n < 65536) :
    fromDocAux acc (("port", YamlValue.int n) :: rest) =
      fromDocAux { acc with port := some n } rest := by
  refine fromDocAux_cons_ok ?_
  rw [show decodeField acc "port" (YamlValue.int n) =
      (decodeOptU16 (YamlValue.int n)).map (fun x => { acc with port := x }) from rfl]
  rw [decodeOptU16_int h]
  rfl

theorem fromDocAux_socks_port {acc : MihomoYamlConfig} {rest : YamlDoc} {n : Nat}
    (h : n < 65536) :
    fromDocAux acc (("socks-port", YamlValue.int n) :: rest) =
      fromDocAux { acc with socks_port := some n } rest := by
  refine fromDocAux_cons_ok ?_
  rw [show decodeField acc "socks-port" (YamlValue.int n) =
      (decodeOptU16 (YamlValue.int n)).map (fun x => { acc with socks_port := x }) from rfl]
  rw [decodeOptU16_int h]
  rfl

theorem fromDocAux_mode {acc : MihomoYamlConfig} {rest : YamlDoc} (m : MihomoMode) :
    fromDocAux acc (("mode", YamlValue.str m.toWire) :: rest) =
      fromDocAux { acc with mode := some m } rest := by
  cases m <;> rfl

theorem fromDocAux_log_level {acc : MihomoYamlConfig} {rest : YamlDoc}
    (l : MihomoLogLevel) :
    fromDocAux acc (("log-level", YamlValue.str l.toWire) :: rest) =
      fromDocAux { acc with log_level := some l } rest := by
  cases l <;> rfl

theorem fromDocAux_allow_lan {acc : MihomoYamlConfig} {rest : YamlDoc} (o : Option Bool)
    (hacc : acc.allow_lan = none) :
    fromDocAux acc (optPair "allow-lan" YamlValue.bool o ++ rest) =
      fromDocAux { acc with allow_lan := o } rest := by
  obtain ⟨p₁, p₂, al, ba, mo, ll, ip, ec, eu, se, ex⟩ := acc
  obtain rfl : al = none := hacc
  cases o <;> rfl

theorem fromDocAux_bind_address {acc : MihomoYamlConfig} {rest : YamlDoc}
    (o : Option String) (hacc : acc.bind_address = none) :
    fromDocAux acc (optPair "bind-address" YamlValue.str o ++ rest) =
      fromDocAux { acc with bind_address := o } rest := by
  obtain ⟨p₁, p₂, al, ba, mo, ll, ip, ec, eu, se, ex⟩ := acc
  obtain rfl : ba = none := hacc
  cases o <;> rfl

theorem fromDocAux_ipv6 {acc : MihomoYamlConfig} {rest : YamlDoc} (o : Option Bool)
    (hacc : acc.ipv6 = none) :
    fromDocAux acc (optPair "ipv6" YamlValue.bool o ++ rest) =
      fromDocAux { acc with ipv6 := o } rest := by
  obtain ⟨p₁, p₂, al, ba, mo, ll, ip, ec, eu, se, ex⟩ := acc
  obtain rfl : ip = none := hacc
  cases o <;> rfl

theorem fromDocAux_external_controller {acc : MihomoYamlConfig} {rest : YamlDoc}
    (o : Option String) (hacc : acc.external_controller = none) :
    fromDocAux acc (optPair "external-controller" YamlValue.str o ++ rest) =
      fromDocAux { acc with external_controller := o } rest := by
  obtain ⟨p₁, p₂, al, ba, mo, ll, ip, ec, eu, se, ex⟩ := acc
  obtain rfl : ec = none := hacc
  cases o <;> rfl

theorem fromDocAux_external_ui {acc : MihomoYamlConfig} {rest : YamlDoc}
    (o : Option String) (hacc : acc.external_ui = none) :
    fromDocAux acc (optPair "external-ui" YamlValue.str o ++ rest) =
      fromDocAux { acc with external_ui := o } rest := by
  obtain ⟨p₁, p₂, al, ba, mo, ll, ip, ec, eu, se, ex⟩ := acc
  obtain rfl : eu = none := hacc
  cases o <;> rfl

theorem fromDocAux_secret {acc : MihomoYamlConfig} {rest : YamlDoc}
    (o : Option String) (hacc : acc.secret = none) :
    fromDocAux acc (optPair "secret" YamlValue.str o ++ rest) =
      fromDocAux { acc with secret := o } rest := by
  obtain ⟨p₁, p₂, al, ba, mo, ll, ip, ec, eu, se, ex⟩ := acc
  obtain rfl : se = none := hacc
  cases o <;> rfl

theorem fromDocAux_all_unrec {e : YamlDoc} (acc : MihomoYamlConfig)
    (h : ∀ p ∈ e, p.1 ∉ recognizedKeys) :
    fromDocAux acc e = .ok { acc with extra := acc.extra ++ e } := by
  induction e generalizing acc with
  | nil => simp [fromDocAux]
  | cons p rest ih =>
    obtain ⟨k, v⟩ := p
    simp only [fromDocAux]
    rw [decodeField_unrec (h (k, v) (List.mem_cons_self _ _))]
    show fromDocAux { acc with extra := acc.extra ++ [(k, v)] } rest = _
    rw [ih _ fun q hq => h q (List.mem_cons_of_mem _ hq)]
    simp

theorem mem_optPair_fst {n : String} {enc : α → β} {o : Option α} {p : String × β}
    (h : p ∈ optPair n enc o) : p.1 = n := by
  cases o with
  | none => simp [optPair] at h
  | some x =>
    simp only [optPair, List.mem_singleton] at h
    rw [h]

theorem mem_reqPair_fst {n : String} {nv : β} {enc : α → β} {o : Option α}
    {p : String × β} (h : p ∈ reqPair n nv enc o) : p.1 = n := by
  cases o with
  | none =>
    simp only [reqPair, List.mem_singleton] at h
    rw [h]
  | some x =>
    simp only [reqPair, List.mem_singleton] at h
    rw [h]

theorem knownDoc_keys_recognized (y : MihomoYamlConfig) :
    ∀ p ∈ y.knownDoc, p.1 ∈ recognizedKeys := by
  intro p hp
  simp only [MihomoYamlConfig.knownDoc, List.append_assoc, List.mem_append] at hp
  rcases hp with h | h | h | h | h | h | h | h | h | h <;>
    first
      | (rw [mem_reqPair_fst h]; decide)
      | (rw [mem_optPair_fst h]; decide)

theorem map_fst_reqPair (n : String) (nv : β) (enc : α → β) (o : Option α) :
    (reqPair n nv enc o).map Prod.fst = [n] := by
  cases o <;> rfl

theorem knownDoc_keys_nodup (y : MihomoYamlConfig) :
    ((MihomoYamlConfig.knownDoc y).map Prod.fst).Nodup := by
  obtain ⟨p₁, p₂, al, ba, mo, ll, ip, ec, eu, se, ex⟩ := y
  simp only [MihomoYamlConfig.knownDoc, List.map_append, map_fst_reqPair]
  cases al <;> cases ba <;> cases ip <;> cases ec <;> cases eu <;> cases se <;>
    simp [optPair]

theorem fromDoc_ok_nodup {d : YamlDoc} {y : MihomoYamlConfig}
    (h : MihomoYamlConfig.fromDoc d = .ok y) : (d.map Prod.fst).Nodup := by
  by_cases hnd : (d.map Prod.fst).Nodup
  · exact hnd
  · simp only [MihomoYamlConfig.fromDoc, if_neg hnd] at h
    exact Except.noConfusion h

theorem fromDoc_extra {d : YamlDoc} {y : MihomoYamlConfig}
    (h : MihomoYamlConfig.fromDoc d = .ok y) :
    y.extra = d.filter (fun p => p.1 ∉ recognizedKeys) := by
  have hnd := fromDoc_ok_nodup h
  simp only [MihomoYamlConfig.fromDoc, if_pos hnd] at h
  have h₂ := fromDocAux_extra h
  simpa [emptyYaml] using h₂

theorem fromDoc_extra_unrec {d : YamlDoc} {y : MihomoYamlConfig}
    (h : MihomoYamlConfig.fromDoc d = .ok y) :
    ∀ p ∈ y.extra, p.1 ∉ recognizedKeys := by
  rw [fromDoc_extra h]
  intro p hp
  simpa using List.of_mem_filter hp

theorem fromDoc_extra_nodup {d : YamlDoc} {y : MihomoYamlConfig}
    (h : MihomoYamlConfig.fromDoc d = .ok y) :
    (y.extra.map Prod.fst).Nodup := by
  rw [fromDoc_extra h]
  exact (fromDoc_ok_nodup h).sublist (List.Sublist.map Prod.fst (List.filter_sublist d))

theorem apply_override_eq (y : MihomoYamlConfig) (c : MihomoConfig) :
    apply_override y c = overrideYaml c y.extra := rfl

theorem fromDoc_knownDoc_append (c : MihomoConfig) (e : YamlDoc)
    (hp : c.port < 65536) (hs : c.socks_port < 65536)
    (hnd : (e.map Prod.fst).Nodup) (hunrec : ∀ p ∈ e, p.1 ∉ recognizedKeys) :
    MihomoYamlConfig.fromDoc ((overrideYaml c e).knownDoc ++ e) =
      .ok (overrideYaml c e) := by
  have hgate : ((((overrideYaml c e).knownDoc ++ e)).map Prod.fst).Nodup := by
    rw [List.map_append, List.nodup_append]
    refine ⟨knownDoc_keys_nodup _, hnd, ?_⟩
    intro a ha hb
    obtain ⟨p, hp₁, rfl⟩ := List.mem_map.mp ha
    have h₁ := knownDoc_keys_recognized _ p hp₁
    obtain ⟨q, hq₁, hq₂⟩ := List.mem_map.mp hb
    exact hunrec q hq₁ (hq₂ ▸ h₁)
  simp only [MihomoYamlConfig.fromDoc, if_pos hgate]
  simp only [MihomoYamlConfig.knownDoc, overrideYaml, reqPair, List.append_assoc,
    List.cons_append, List.singleton_append, List.nil_append]
  rw [fromDocAux_port hp, fromDocAux_socks_port hs,
    fromDocAux_allow_lan c.allow_lan rfl,
    fromDocAux_bind_address c.bind_address rfl,
    fromDocAux_mode c.mode,
    fromDocAux_log_level c.log_level,
    fromDocAux_ipv6 c.ipv6 rfl,
    fromDocAux_external_controller c.external_controller rfl,
    fromDocAux_external_ui c.external_ui rfl,
    fromDocAux_secret c.secret rfl,
    fromDocAux_all_unrec _ hunrec]
  rfl

theorem overlayRuns_of_doc {d : YamlDoc} {c : MihomoConfig} {out : YamlDoc}
    (h : apply_mihomo_override_doc d c = .ok out) : overlayRuns d c out := by
  obtain ⟨y, hy, rfl⟩ := except_map_ok h
  exact ⟨y, sortByKey (apply_override y c).extra, hy, sortByKey_perm _, rfl⟩

theorem orElse_none_left (f : Unit → Option β) : (Option.orElse none f) = f () := rfl

theorem orElse_some_left (x : β) (f : Unit → Option β) :
    (Option.orElse (some x) f) = some x := rfl

theorem optPair_none (n : String) (enc : α → β) : optPair n enc none = [] := rfl

theorem optPair_some (n : String) (enc : α → β) (x : α) :
    optPair n enc (some x) = [(n, enc x)] := rfl

theorem lookupKey_sorted_extra_none (k : String) (e : YamlDoc) (hk : k ∈ recognizedKeys)
    (hue : ∀ p ∈ e, p.1 ∉ recognizedKeys) : lookupKey k (sortByKey e) = none :=
  lookupKey_eq_none _ _ fun p hp heq => (hue p ((mem_sortByKey p e).mp hp)) (heq ▸ hk)

theorem toDoc_overrideYaml (c : MihomoConfig) (e : YamlDoc) :
    (overrideYaml c e).toDoc =
      ("port", YamlValue.int c.port) :: ("socks-port", YamlValue.int c.socks_port) ::
      (optPair "allow-lan" YamlValue.bool c.allow_lan ++
        (optPair "bind-address" YamlValue.str c.bind_address ++
          (("mode", YamlValue.str c.mode.toWire) ::
            ("log-level", YamlValue.str c.log_level.toWire) ::
            (optPair "ipv6" YamlValue.bool c.ipv6 ++
              (optPair "external-controller" YamlValue.str c.external_controller ++
                (optPair "external-ui" YamlValue.str c.external_ui ++
                  (optPair "secret" YamlValue.str c.secret ++ sortByKey e))))))) := by
  simp [MihomoYamlConfig.toDoc, MihomoYamlConfig.knownDoc, overrideYaml, reqPair]

theorem overrideYaml_toDoc_lookups (c : MihomoConfig) (e : YamlDoc)
    (hue : ∀ p ∈ e, p.1 ∉ recognizedKeys) :
    lookupKey "port" (overrideYaml c e).toDoc = some (YamlValue.int c.port) ∧
    lookupKey "socks-port" (overrideYaml c e).toDoc = some (YamlValue.int c.socks_port) ∧
    lookupKey "mode" (overrideYaml c e).toDoc = some (YamlValue.str c.mode.toWire) ∧
    lookupKey "log-level" (overrideYaml c e).toDoc = some (YamlValue.str c.log_level.toWire) ∧
    lookupKey "allow-lan" (overrideYaml c e).toDoc = c.allow_lan.map YamlValue.bool ∧
    lookupKey "bind-address" (overrideYaml c e).toDoc = c.bind_address.map YamlValue.str ∧
    lookupKey "ipv6" (overrideYaml c e).toDoc = c.ipv6.map YamlValue.bool ∧
    lookupKey "external-controller" (overrideYaml c e).toDoc =
      c.external_controller.map YamlValue.str ∧
    lookupKey "external-ui" (overrideYaml c e).toDoc = c.external_ui.map YamlValue.str ∧
    lookupKey "secret" (overrideYaml c e).toDoc = c.secret.map YamlValue.str := by
  rw [toDoc_overrideYaml]
  refine ⟨?_, ?_, ?_, ?_, ?_, ?_, ?_, ?_, ?_, ?_⟩
  · simp +decide [lookupKey_cons]
  · simp +decide [lookupKey_cons]
  · simp +decide [lookupKey_cons, lookupKey_append, lookupKey_optPair_ne,
      orElse_none_left, orElse_some_left]
  · simp +decide [lookupKey_cons, lookupKey_append, lookupKey_optPair_ne,
      orElse_none_left, orElse_some_left]
  · cases c.allow_lan <;>
      simp +decide [lookupKey_cons, lookupKey_append, lookupKey_optPair_ne,
        optPair_none, optPair_some, orElse_none_left, orElse_some_left,
        lookupKey_sorted_extra_none "allow-lan" e (by decide) hue]
  · cases c.bind_address <;>
      simp +decide [lookupKey_cons, lookupKey_append, lookupKey_optPair_ne,
        optPair_none, optPair_some, orElse_none_left, orElse_some_left,
        lookupKey_sorted_extra_none "bind-address" e (by decide) hue]
  · cases c.ipv6 <;>
      simp +decide [lookupKey_cons, lookupKey_append, lookupKey_optPair_ne,
        optPair_none, optPair_some, orElse_none_left, orElse_some_left,
        lookupKey_sorted_extra_none "ipv6" e (by decide) hue]
  · cases c.external_controller <;>
      simp +decide [lookupKey_cons, lookupKey_append, lookupKey_optPair_ne,
        optPair_none, optPair_some, orElse_none_left, orElse_some_left,
        lookupKey_sorted_extra_none "external-controller" e (by decide) hue]
  · cases c.external_ui <;>
      simp +decide [lookupKey_cons, lookupKey_append, lookupKey_optPair_ne,
        optPair_none, optPair_some, orElse_none_left, orElse_some_left,
        lookupKey_sorted_extra_none "external-ui" e (by decide) hue]
  · cases c.secret <;>
      simp +decide [lookupKey_cons, lookupKey_append, lookupKey_optPair_ne,
        optPair_none, optPair_some, orElse_none_left, orElse_some_left,
        lookupKey_sorted_extra_none "secret" e (by decide) hue]

theorem lookupKey_toDoc_of_unrec (y : MihomoYamlConfig) {k : String}
    (hk : k ∉ recognizedKeys) :
    lookupKey k y.toDoc = lookupKey k (sortByKey y.extra) := by
  rw [MihomoYamlConfig.toDoc, lookupKey_append,
    lookupKey_eq_none k y.knownDoc
      (fun p hp heq => hk (heq ▸ knownDoc_keys_recognized y p hp)),
    orElse_none_left]

theorem filter_unrec_toDoc (c : MihomoConfig) (e : YamlDoc)
    (hue : ∀ p ∈ e, p.1 ∉ recognizedKeys) :
    ((overrideYaml c e).toDoc).filter (fun p => p.1 ∉ recognizedKeys) = sortByKey e := by
  rw [MihomoYamlConfig.toDoc, List.filter_append]
  have h₁ : (overrideYaml c e).knownDoc.filter (fun p => p.1 ∉ recognizedKeys) = [] := by
    rw [List.filter_eq_nil_iff]
    intro p hp
    simpa using knownDoc_keys_recognized _ p hp
  have h₂ : (sortByKey e).filter (fun p => p.1 ∉ recognizedKeys) = sortByKey e := by
    rw [List.filter_eq_self]
    intro p hp
    simpa using hue p ((mem_sortByKey p e).mp hp)
  rw [h₁, show (overrideYaml c e).extra = e from rfl, h₂, List.nil_append]

theorem getU16_int {n : Nat} (h : n < 65536) :
    getU16 (some (TomlValue.int n)) = .ok n := by
  simp only [getU16]
  rw [if_pos ⟨Int.natCast_nonneg n, by exact_mod_cast h⟩]
  simp

theorem getMode_toWire (m : MihomoMode) :
    getMode (some (TomlValue.str m.toWire)) = .ok m := by
  cases m <;> rfl

theorem getLogLevel_toWire (l : MihomoLogLevel) :
    getLogLevel (some (TomlValue.str l.toWire)) = .ok l := by
  cases l <;> rfl

theorem getOptBool_map (o : Option Bool) : getOptBool (o.map TomlValue.bool) = .ok o := by
  cases o <;> rfl

theorem getOptStr_map (o : Option String) : getOptStr (o.map TomlValue.str) = .ok o := by
  cases o <;> rfl

theorem encodeMihomoConfig_keys_nodup (c : MihomoConfig) :
    ((encodeMihomoConfig c).map Prod.fst).Nodup := by
  obtain ⟨p₁, p₂, al, ba, mo, ll, ip, ec, eu, se⟩ := c
  simp only [encodeMihomoConfig, List.map_append]
  cases al <;> cases ba <;> cases ip <;> cases ec <;> cases eu <;> cases se <;>
    simp [optPair]

theorem encodeMihomoConfig_eq (c : MihomoConfig) :
    encodeMihomoConfig c =
      ("port", TomlValue.int c.port) :: ("socks_port", TomlValue.int c.socks_port) ::
      (optPair "allow_lan" TomlValue.bool c.allow_lan ++
        (optPair "bind_address" TomlValue.str c.bind_address ++
          (("mode", TomlValue.str c.mode.toWire) ::
            ("log_level", TomlValue.str c.log_level.toWire) ::
            (optPair "ipv6" TomlValue.bool c.ipv6 ++
              (optPair "external_controller" TomlValue.str c.external_controller ++
                (optPair "external_ui" TomlValue.str c.external_ui ++
                  optPair "secret" TomlValue.str c.secret)))))) := by
  simp [encodeMihomoConfig]

theorem encodeMihomo_lookups (c : MihomoConfig) :
    lookupKey "port" (encodeMihomoConfig c) = some (TomlValue.int c.port) ∧
    lookupKey "socks_port" (encodeMihomoConfig c) = some (TomlValue.int c.socks_port) ∧
    lookupKey "mode" (encodeMihomoConfig c) = some (TomlValue.str c.mode.toWire) ∧
    lookupKey "log_level" (encodeMihomoConfig c) = some (TomlValue.str c.log_level.toWire) ∧
    lookupKey "allow_lan" (encodeMihomoConfig c) = c.allow_lan.map TomlValue.bool ∧
    lookupKey "bind_address" (encodeMihomoConfig c) = c.bind_address.map TomlValue.str ∧
    lookupKey "ipv6" (encodeMihomoConfig c) = c.ipv6.map TomlValue.bool ∧
    lookupKey "external_controller" (encodeMihomoConfig c) =
      c.external_controller.map TomlValue.str ∧
    lookupKey "external_ui" (encodeMihomoConfig c) = c.external_ui.map TomlValue.str ∧
    lookupKey "secret" (encodeMihomoConfig c) = c.secret.map TomlValue.str := by
  rw [encodeMihomoConfig_eq]
  refine ⟨?_, ?_, ?_, ?_, ?_, ?_, ?_, ?_, ?_, ?_⟩
  · simp +decide [lookupKey_cons]
  · simp +decide [lookupKey_cons]
  · simp +decide [lookupKey_cons, lookupKey_append, lookupKey_optPair_ne,
      orElse_none_left, orElse_some_left]
  · simp +decide [lookupKey_cons, lookupKey_append, lookupKey_optPair_ne,
      orElse_none_left, orElse_some_left]
  · cases c.allow_lan <;>
      simp +decide [lookupKey_cons, lookupKey_append, lookupKey_optPair_ne,
        optPair_none, optPair_some, orElse_none_left, orElse_some_left]
  · cases c.bind_address <;>
      simp +decide [lookupKey_cons, lookupKey_append, lookupKey_optPair_ne,
        optPair_none, optPair_some, orElse_none_left, orElse_some_left]
  · cases c.ipv6 <;>
      simp +decide [lookupKey_cons, lookupKey_append, lookupKey_optPair_ne,
        optPair_none, optPair_some, orElse_none_left, orElse_some_left]
  · cases c.external_controller <;>
      simp +decide [lookupKey_cons, lookupKey_append, lookupKey_optPair_ne,
        optPair_none, optPair_some, orElse_none_left, orElse_some_left]
  · cases c.external_ui <;>
      simp +decide [lookupKey_cons, lookupKey_append, lookupKey_optPair_ne,
        optPair_none, optPair_some, orElse_none_left, orElse_some_left]
  · cases c.secret <;>
      simp +decide [lookupKey_cons, lookupKey_append, lookupKey_optPair_ne,
        optPair_none, optPair_some, orElse_none_left, orElse_some_left]

theorem decodeMihomo_encode (c : MihomoConfig) (hp : c.port < 65536)
    (hs : c.socks_port < 65536) :
    decodeMihomoConfig (.table (encodeMihomoConfig c)) = .ok c := by
  obtain ⟨h₁, h₂, h₃, h₄, h₅, h₆, h₇, h₈, h₉, h₁₀⟩ := encodeMihomo_lookups c
  simp only [decodeMihomoConfig]
  rw [if_pos (encodeMihomoConfig_keys_nodup c)]
  rw [h₁, h₂, h₃, h₄, h₅, h₆, h₇, h₈, h₉, h₁₀]
  rw [getU16_int hp, getU16_int hs, getMode_toWire c.mode,
    getLogLevel_toWire c.log_level, getOptBool_map c.allow_lan,
    getOptStr_map c.bind_address, getOptBool_map c.ipv6,
    getOptStr_map c.external_controller, getOptStr_map c.external_ui,
    getOptStr_map c.secret]
  rfl

theorem encodeConfig_map_fst (c : Config) :
    (encodeConfig c).map Prod.fst = configKeys := rfl

theorem encodeConfig_keys_nodup (c : Config) :
    ((encodeConfig c).map Prod.fst).Nodup := by
  rw [encodeConfig_map_fst]
  decide

theorem decodeConfig_encode (c : Config) (hp : c.mihomo_config.port < 65536)
    (hs : c.mihomo_config.socks_port < 65536) :
    decodeConfig (.table (encodeConfig c)) = .ok c := by
  simp only [decodeConfig]
  rw [if_pos (encodeConfig_keys_nodup c)]
  rw [show lookupKey "remote_mihomo_binary_url" (encodeConfig c) =
      some (TomlValue.str c.remote_mihomo_binary_url) from rfl]
  rw [show lookupKey "remote_config_url" (encodeConfig c) =
      some (TomlValue.str c.remote_config_url) from rfl]
  rw [show lookupKey "mihomo_binary_path" (encodeConfig c) =
      some (TomlValue.str c.mihomo_binary_path) from rfl]
  rw [show lookupKey "mihomo_config_root" (encodeConfig c) =
      some (TomlValue.str c.mihomo_config_root) from rfl]
  rw [show lookupKey "user_systemd_root" (encodeConfig c) =
      some (TomlValue.str c.user_systemd_root) from rfl]
  rw [show getMihomoTable (lookupKey "mihomo_config" (encodeConfig c)) =
      decodeMihomoConfig (TomlValue.table (encodeMihomoConfig c.mihomo_config)) from rfl]
  rw [decodeMihomo_encode c.mihomo_config hp hs]
  rfl

theorem lookupKey_append_unrec {ks : List String} (k : String) (hk : k ∈ ks)
    {m e : List (String × β)} (he : ∀ p ∈ e, p.1 ∉ ks) :
    lookupKey k (m ++ e) = lookupKey k m := by
  rw [lookupKey_append,
    lookupKey_eq_none k e (fun p hp heq => (he p hp) (heq ▸ hk)),
    orElse_none_right]

theorem decodeMihomoConfig_append {m e : List (String × TomlValue)}
    (hnd : (((m ++ e).map Prod.fst)).Nodup) (he : ∀ p ∈ e, p.1 ∉ mihomoKeys) :
    decodeMihomoConfig (.table (m ++ e)) = decodeMihomoConfig (.table m) := by
  have hndm : (m.map Prod.fst).Nodup := by
    rw [List.map_append] at hnd
    exact (List.nodup_append.mp hnd).1
  simp only [decodeMihomoConfig]
  rw [if_pos hnd, if_pos hndm]
  rw [lookupKey_append_unrec "port" (by decide) he,
    lookupKey_append_unrec "socks_port" (by decide) he,
    lookupKey_append_unrec "allow_lan" (by decide) he,
    lookupKey_append_unrec "bind_address" (by decide) he,
    lookupKey_append_unrec "mode" (by decide) he,
    lookupKey_append_unrec "log_level" (by decide) he,
    lookupKey_append_unrec "ipv6" (by decide) he,
    lookupKey_append_unrec "external_controller" (by decide) he,
    lookupKey_append_unrec "external_ui" (by decide) he,
    lookupKey_append_unrec "secret" (by decide) he]

theorem decodeConfig_append {m e : List (String × TomlValue)}
    (hnd : (((m ++ e).map Prod.fst)).Nodup) (he : ∀ p ∈ e, p.1 ∉ configKeys) :
    decodeConfig (.table (m ++ e)) = decodeConfig (.table m) := by
  have hndm : (m.map Prod.fst).Nodup := by
    rw [List.map_append] at hnd
    exact (List.nodup_append.mp hnd).1
  simp only [decodeConfig]
  rw [if_pos hnd, if_pos hndm]
  rw [lookupKey_append_unrec "remote_mihomo_binary_url" (by decide) he,
    lookupKey_append_unrec "remote_config_url" (by decide) he,
    lookupKey_append_unrec "mihomo_binary_path" (by decide) he,
    lookupKey_append_unrec "mihomo_config_root" (by decide) he,
    lookupKey_append_unrec "user_systemd_root" (by decide) he,
    lookupKey_append_unrec "mihomo_config" (by decide) he]

theorem encodeMihomoConfig_keys_mem (c : MihomoConfig) :
    ∀ p ∈ encodeMihomoConfig c, p.1 ∈ mihomoKeys := by
  intro p hp
  rw [encodeMihomoConfig_eq] at hp
  simp only [List.mem_cons, List.mem_append] at hp
  rcases hp with rfl | rfl | h | h | rfl | rfl | h | h | h | h
  · exact (by decide : ("port" : String) ∈ mihomoKeys)
  · exact (by decide : ("socks_port" : String) ∈ mihomoKeys)
  · rw [mem_optPair_fst h]; decide
  · rw [mem_optPair_fst h]; decide
  · exact (by decide : ("mode" : String) ∈ mihomoKeys)
  · exact (by decide : ("log_level" : String) ∈ mihomoKeys)
  · rw [mem_optPair_fst h]; decide
  · rw [mem_optPair_fst h]; decide
  · rw [mem_optPair_fst h]; decide
  · rw [mem_optPair_fst h]; decide

theorem decode_settingsDocWithExtras (c : Config)
    (eIn eTop : List (String × TomlValue))
    (hp : c.mihomo_config.port < 65536) (hs : c.mihomo_config.socks_port < 65536)
    (hin : ∀ p ∈ eIn, p.1 ∉ mihomoKeys) (hinnd : (eIn.map Prod.fst).Nodup)
    (htop : ∀ p ∈ eTop, p.1 ∉ configKeys) (htopnd : (eTop.map Prod.fst).Nodup) :
    decodeConfig (settingsDocWithExtras c eIn eTop) = .ok c := by
  have hinner : ((encodeMihomoConfig c.mihomo_config ++ eIn).map Prod.fst).Nodup := by
    rw [List.map_append, List.nodup_append]
    refine ⟨encodeMihomoConfig_keys_nodup _, hinnd, ?_⟩
    intro a ha hb
    obtain ⟨p, hp₁, rfl⟩ := List.mem_map.mp ha
    obtain ⟨q, hq₁, hq₂⟩ := List.mem_map.mp hb
    exact hin q hq₁ (hq₂ ▸ encodeMihomoConfig_keys_mem _ p hp₁)
  have houter : (((settingsKnownList c eIn ++ eTop).map Prod.fst)).Nodup := by
    rw [List.map_append, show (settingsKnownList c eIn).map Prod.fst = configKeys from rfl,
      List.nodup_append]
    refine ⟨by decide, htopnd, ?_⟩
    intro a ha hb
    obtain ⟨q, hq₁, hq₂⟩ := List.mem_map.mp hb
    exact htop q hq₁ (hq₂ ▸ ha)
  rw [settingsDocWithExtras]
  rw [decodeConfig_append houter htop]
  simp only [decodeConfig]
  rw [if_pos (show ((settingsKnownList c eIn).map Prod.fst).Nodup by
    rw [show (settingsKnownList c eIn).map Prod.fst = configKeys from rfl]; decide)]
  rw [show lookupKey "remote_mihomo_binary_url" (settingsKnownList c eIn) =
      some (TomlValue.str c.remote_mihomo_binary_url) from rfl]
  rw [show lookupKey "remote_config_url" (settingsKnownList c eIn) =
      some (TomlValue.str c.remote_config_url) from rfl]
  rw [show lookupKey "mihomo_binary_path" (settingsKnownList c eIn) =
      some (TomlValue.str c.mihomo_binary_path) from rfl]
  rw [show lookupKey "mihomo_config_root" (settingsKnownList c eIn) =
      some (TomlValue.str c.mihomo_config_root) from rfl]
  rw [show lookupKey "user_systemd_root" (settingsKnownList c eIn) =
      some (TomlValue.str c.user_systemd_root) from rfl]
  rw [show getMihomoTable (lookupKey "mihomo_config" (settingsKnownList c eIn)) =
      decodeMihomoConfig (TomlValue.table (encodeMihomoConfig c.mihomo_config ++ eIn))
      from rfl]
  rw [decodeMihomoConfig_append hinner hin, decodeMihomo_encode c.mihomo_config hp hs]
  rfl

theorem parse_config_valid {t : TomlValue} {c : Config} (hdec : decodeConfig t = .ok c)
    (h₁ : c.remote_config_url ≠ "") (h₂ : c.mihomo_binary_path ≠ "")
    (h₃ : c.mihomo_config_root ≠ "") (h₄ : c.user_systemd_root ≠ "") :
    parse_config (some t) = (some t, .ok c) := by
  simp only [parse_config, hdec, required_urls, List.find?,
    beq_eq_false_iff_ne.mpr h₁, beq_eq_false_iff_ne.mpr h₂,
    beq_eq_false_iff_ne.mpr h₃, beq_eq_false_iff_ne.mpr h₄]

theorem parse_config_empty₁ {t : TomlValue} {c : Config} (hdec : decodeConfig t = .ok c)
    (h : c.remote_config_url = "") :
    parse_config (some t) = (some t, .error (.validationFailed "remote_config_url")) := by
  simp only [parse_config, hdec, required_urls, List.find?, h, beq_self_eq_true]

theorem parse_config_empty₂ {t : TomlValue} {c : Config} (hdec : decodeConfig t = .ok c)
    (h₁ : c.remote_config_url ≠ "") (h : c.mihomo_binary_path = "") :
    parse_config (some t) = (some t, .error (.validationFailed "mihomo_binary_path")) := by
  simp only [parse_config, hdec, required_urls, List.find?, h, beq_self_eq_true,
    beq_eq_false_iff_ne.mpr h₁]

theorem parse_config_empty₃ {t : TomlValue} {c : Config} (hdec : decodeConfig t = .ok c)
    (h₁ : c.remote_config_url ≠ "") (h₂ : c.mihomo_binary_path ≠ "")
    (h : c.mihomo_config_root = "") :
    parse_config (some t) = (some t, .error (.validationFailed "mihomo_config_root")) := by
  simp only [parse_config, hdec, required_urls, List.find?, h, beq_self_eq_true,
    beq_eq_false_iff_ne.mpr h₁, beq_eq_false_iff_ne.mpr h₂]

theorem parse_config_empty₄ {t : TomlValue} {c : Config} (hdec : decodeConfig t = .ok c)
    (h₁ : c.remote_config_url ≠ "") (h₂ : c.mihomo_binary_path ≠ "")
    (h₃ : c.mihomo_config_root ≠ "") (h : c.user_systemd_root = "") :
    parse_config (some t) = (some t, .error (.validationFailed "user_systemd_root")) := by
  simp only [parse_config, hdec, required_urls, List.find?, h, beq_self_eq_true,
    beq_eq_false_iff_ne.mpr h₁, beq_eq_false_iff_ne.mpr h₂, beq_eq_false_iff_ne.mpr h₃]

/-- C1: for every remote document that parses successfully, after
apply_mihomo_override each recognized field whose Settings override is
present holds exactly the override value (as the lookup equations with
Option.map state), each optional recognized field whose override is
absent is absent from the output document, and port, socks-port, mode,
log-level are always present with the Settings values, even when they
were absent from the input document. -/
theorem overlay_recognized_fields (d : YamlDoc) (c : MihomoConfig) (out : YamlDoc)
    (h : apply_mihomo_override_doc d c = .ok out) :
    lookupKey "port" out = some (YamlValue.int c.port) ∧
    lookupKey "socks-port" out = some (YamlValue.int c.socks_port) ∧
    lookupKey "mode" out = some (YamlValue.str c.mode.toWire) ∧
    lookupKey "log-level" out = some (YamlValue.str c.log_level.toWire) ∧
    lookupKey "allow-lan" out = c.allow_lan.map YamlValue.bool ∧
    lookupKey "bind-address" out = c.bind_address.map YamlValue.str ∧
    lookupKey "ipv6" out = c.ipv6.map YamlValue.bool ∧
    lookupKey "external-controller" out = c.external_controller.map YamlValue.str ∧
    lookupKey "external-ui" out = c.external_ui.map YamlValue.str ∧
    lookupKey "secret" out = c.secret.map YamlValue.str := by
  obtain ⟨y, hy, rfl⟩ := except_map_ok h
  rw [apply_override_eq]
  exact overrideYaml_toDoc_lookups c y.extra (fromDoc_extra_unrec hy)

/-- C1 witness: at a concrete document, port is replaced by the
override value and the ipv6 key, present in the input but absent from
the overrides, is absent from the output. -/
theorem overlay_recognized_fields_witness :
    lookupKey "port" exOut = some (YamlValue.int 7890) ∧ lookupKey "ipv6" exOut = none :=
  ⟨(overlay_recognized_fields exDoc exCfg exOut (by rfl)).1,
   (overlay_recognized_fields exDoc exCfg exOut (by rfl)).2.2.2.2.2.2.1⟩

/-- C2: apply_mihomo_override preserves every unrecognized top level
key exactly: for each unrecognized key the looked-up value in the
output equals the one in the input, and the unrecognized entries of the
output are a permutation of those of the input. -/
theorem overlay_preserves_unrecognized (d : YamlDoc) (c : MihomoConfig) (out : YamlDoc)
    (h : apply_mihomo_override_doc d c = .ok out) :
    (∀ k, k ∉ recognizedKeys → lookupKey k out = lookupKey k d) ∧
    List.Perm (out.filter (fun p => p.1 ∉ recognizedKeys))
      (d.filter (fun p => p.1 ∉ recognizedKeys)) := by
  obtain ⟨y, hy, rfl⟩ := except_map_ok h
  rw [apply_override_eq]
  have hext := fromDoc_extra hy
  have hue := fromDoc_extra_unrec hy
  have hnd := fromDoc_extra_nodup hy
  constructor
  · intro k hk
    rw [lookupKey_toDoc_of_unrec _ hk,
      show (overrideYaml c y.extra).extra = y.extra from rfl,
      lookupKey_sortByKey k hnd, hext]
    exact lookupKey_filter k _ d
      (fun q hq => by simp only [hq, decide_eq_true_eq]; exact hk)
  · rw [filter_unrec_toDoc c y.extra hue, hext]
    exact sortByKey_perm _

/-- C2 witness: at a concrete document, the nested value of an
unrecognized key survives the overlay unchanged. -/
theorem overlay_preserves_unrecognized_witness :
    lookupKey "zz" exOut = lookupKey "zz" exDoc :=
  (overlay_preserves_unrecognized exDoc exCfg exOut (by rfl)).1 "zz" (by decide)

/-- C5 counterexample: for the document exDoc, whose unrecognized keys
appear in the order zz, aa, the overlay emits them in the order aa, zz:
the source keeps them in an unordered HashMap, so the original relative
order is not preserved. -/
theorem overlay_extra_order_counterexample :
    (apply_mihomo_override_doc exDoc exCfg).map unrecognizedKeysOf = .ok ["aa", "zz"] ∧
    unrecognizedKeysOf exDoc = ["zz", "aa"] ∧
    (["aa", "zz"] : List String) ≠ ["zz", "aa"] :=
  ⟨rfl, rfl, by decide⟩

/-- C5 amended: the unrecognized entries of the remote document are
collected during parse and re-emitted on serialization with their keys
and values intact, as a permutation of the input entries; because the
source stores them in an unordered HashMap, the emission order is
unspecified, not the original relative order. -/
theorem overlay_extra_reemitted_unordered (d : YamlDoc) (c : MihomoConfig) (out : YamlDoc)
    (h : apply_mihomo_override_doc d c = .ok out) :
    List.Perm (out.filter (fun p => p.1 ∉ recognizedKeys))
      (d.filter (fun p => p.1 ∉ recognizedKeys)) := by
  obtain ⟨y, hy, rfl⟩ := except_map_ok h
  rw [apply_override_eq, filter_unrec_toDoc c y.extra (fromDoc_extra_unrec hy),
    fromDoc_extra hy]
  exact sortByKey_perm _

/-- C5 amended witness: concrete instance of the permutation. -/
theorem overlay_extra_reemitted_unordered_witness :
    List.Perm (exOut.filter (fun p => p.1 ∉ recognizedKeys))
      (exDoc.filter (fun p => p.1 ∉ recognizedKeys)) :=
  overlay_extra_reemitted_unordered exDoc exCfg exOut (by rfl)

/-- C7 counterexample: with the unspecified HashMap emission order of
the catch-all entries made explicit (overlayRuns), a second application
of the same overrides to the first output can emit the two unrecognized
entries in the opposite arrangement, producing a different document:
identical-document idempotence is not a guarantee of the code. -/
theorem overlay_idempotent_counterexample :
    overlayRuns exDoc exCfg exOut ∧ overlayRuns exOut exCfg exOutSwapped ∧
    exOutSwapped ≠ exOut := by
  refine ⟨⟨exParsed, [("aa", .map [("k", .str "v")]), ("zz", .seq [.str "a", .int 3])],
      rfl, List.Perm.swap _ _ _, rfl⟩,
    ⟨exParsedOut, [("zz", .seq [.str "a", .int 3]), ("aa", .map [("k", .str "v")])],
      rfl, List.Perm.swap _ _ _, rfl⟩, ?_⟩
  intro h
  have h₂ := congrArg unrecognizedKeysOf h
  rw [show unrecognizedKeysOf exOutSwapped = ["zz", "aa"] from rfl,
    show unrecognizedKeysOf exOut = ["aa", "zz"] from rfl] at h₂
  exact absurd h₂ (by decide)

/-- C7 amended: apply_mihomo_override is idempotent up to the order of
the unrecognized entries: whatever arrangements the HashMap iteration
produces, applying the same overrides to a first output yields a
permutation of that output that agrees with it on the lookup of every
key — the same document as a key to value mapping, though not
necessarily the identical entry sequence. -/
theorem overlay_idempotent_upto_order (d : YamlDoc) (c : MihomoConfig)
    (out₁ out₂ : YamlDoc) (hp : c.port < 65536) (hs : c.socks_port < 65536)
    (h₁ : overlayRuns d c out₁) (h₂ : overlayRuns out₁ c out₂) :
    List.Perm out₂ out₁ ∧ ∀ k, lookupKey k out₂ = lookupKey k out₁ := by
  obtain ⟨y, e₁, hy, hperm₁, rfl⟩ := h₁
  obtain ⟨y₂, e₂, hy₂, hperm₂, rfl⟩ := h₂
  have hue : ∀ p ∈ y.extra, p.1 ∉ recognizedKeys := fromDoc_extra_unrec hy
  have hnd : (y.extra.map Prod.fst).Nodup := fromDoc_extra_nodup hy
  have hperm₁e : List.Perm e₁ y.extra := hperm₁
  have hue₁ : ∀ p ∈ e₁, p.1 ∉ recognizedKeys := fun p hq => hue p (hperm₁e.subset hq)
  have hnd₁ : (e₁.map Prod.fst).Nodup := ((hperm₁e.map Prod.fst).nodup_iff).mpr hnd
  have hrt := fromDoc_knownDoc_append c e₁ hp hs hnd₁ hue₁
  rw [show (apply_override y c).knownDoc ++ e₁ =
      (overrideYaml c e₁).knownDoc ++ e₁ from rfl] at hy₂
  have hy₂eq : y₂ = overrideYaml c e₁ := by
    have hcomp := hy₂.symm.trans hrt
    injection hcomp
  subst hy₂eq
  have hperm₂e : List.Perm e₂ e₁ := hperm₂
  constructor
  · rw [show (apply_override (overrideYaml c e₁) c).knownDoc =
        (apply_override y c).knownDoc from rfl]
    exact List.Perm.append_left _ hperm₂e
  · intro k
    rw [show (apply_override (overrideYaml c e₁) c).knownDoc =
        (apply_override y c).knownDoc from rfl]
    rw [lookupKey_append, lookupKey_append]
    cases hlk : lookupKey k ((apply_override y c).knownDoc) with
    | some v => rw [orElse_some_left, orElse_some_left]
    | none =>
      rw [orElse_none_left, orElse_none_left]
      exact lookupKey_of_perm k hperm₂e (((hperm₂e.map Prod.fst).nodup_iff).mpr hnd₁)

/-- C7 amended witness: concrete runs on exDoc; the second output is a
permutation of the first. -/
theorem overlay_idempotent_upto_order_witness : List.Perm exOutSwapped exOut :=
  (overlay_idempotent_upto_order exDoc exCfg exOut exOutSwapped (by decide) (by decide)
    ⟨exParsed, [("aa", .map [("k", .str "v")]), ("zz", .seq [.str "a", .int 3])],
      rfl, List.Perm.swap _ _ _, rfl⟩
    ⟨exParsedOut, [("zz", .seq [.str "a", .int 3]), ("aa", .map [("k", .str "v")])],
      rfl, List.Perm.swap _ _ _, rfl⟩).1

/-- C8: whenever apply_mihomo_override fails before the final write
(unreadable file or parse failure), the prior on-disk remote document
is left untouched; the full output is composed in memory and the write
is the single state change. -/
theorem overlay_no_partial_write (fs : Option YamlDoc) (c : MihomoConfig) (e : String)
    (h : (apply_mihomo_override fs c).2 = .error e) :
    (apply_mihomo_override fs c).1 = fs := by
  cases fs with
  | none => rfl
  | some d =>
    cases hres : apply_mihomo_override_doc d c with
    | error e₂ => simp [apply_mihomo_override, hres]
    | ok out =>
      rw [show apply_mihomo_override (some d) c = (some out, .ok ()) by
        simp [apply_mihomo_override, hres]] at h
      exact Except.noConfusion h

/-- C8 witness: a document whose port field is a string fails to parse
and the file state is unchanged. -/
theorem overlay_no_partial_write_witness :
    (apply_mihomo_override (some exBadDoc) exCfg).1 = some exBadDoc :=
  overlay_no_partial_write (some exBadDoc) exCfg "invalid type: expected u16" (by rfl)

/-- C3: parse_config validates non-emptiness of exactly the four fields
remote_config_url, mihomo_binary_path, mihomo_config_root,
user_systemd_root, in that fixed order, and on failure names the first
empty field in that order; the config value is otherwise arbitrary, so
in particular an empty remote_mihomo_binary_url alone does not fail
validation (first conjunct). -/
theorem settings_validation_order (c : Config)
    (hp : c.mihomo_config.port < 65536) (hs : c.mihomo_config.socks_port < 65536) :
    ((c.remote_config_url ≠ "" ∧ c.mihomo_binary_path ≠ "" ∧
        c.mihomo_config_root ≠ "" ∧ c.user_systemd_root ≠ "") →
      parse_config (some (.table (encodeConfig c))) =
        (some (.table (encodeConfig c)), .ok c)) ∧
    (c.remote_config_url = "" →
      parse_config (some (.table (encodeConfig c))) =
        (some (.table (encodeConfig c)), .error (.validationFailed "remote_config_url"))) ∧
    (c.remote_config_url ≠ "" → c.mihomo_binary_path = "" →
      parse_config (some (.table (encodeConfig c))) =
        (some (.table (encodeConfig c)), .error (.validationFailed "mihomo_binary_path"))) ∧
    (c.remote_config_url ≠ "" → c.mihomo_binary_path ≠ "" → c.mihomo_config_root = "" →
      parse_config (some (.table (encodeConfig c))) =
        (some (.table (encodeConfig c)), .error (.validationFailed "mihomo_config_root"))) ∧
    (c.remote_config_url ≠ "" → c.mihomo_binary_path ≠ "" → c.mihomo_config_root ≠ "" →
      c.user_systemd_root = "" →
      parse_config (some (.table (encodeConfig c))) =
        (some (.table (encodeConfig c)), .error (.validationFailed "user_systemd_root"))) := by
  have hdec := decodeConfig_encode c hp hs
  exact ⟨fun ⟨h₁, h₂, h₃, h₄⟩ => parse_config_valid hdec h₁ h₂ h₃ h₄,
    fun h => parse_config_empty₁ hdec h,
    fun h₁ h => parse_config_empty₂ hdec h₁ h,
    fun h₁ h₂ h => parse_config_empty₃ hdec h₁ h₂ h,
    fun h₁ h₂ h₃ h => parse_config_empty₄ hdec h₁ h₂ h₃ h⟩

/-- C3 witness: the default settings have an empty remote_config_url
(and an empty remote_mihomo_binary_url), and validation names
remote_config_url, the first empty field in check order. -/
theorem settings_validation_order_witness :
    parse_config (some (.table (encodeConfig Config.new))) =
      (some (.table (encodeConfig Config.new)),
       .error (.validationFailed "remote_config_url")) :=
  (settings_validation_order Config.new (by decide) (by decide)).2.1 rfl

/-- C4: parse_config on a missing settings file writes a file holding
exactly the documented defaults (spelled out field by field in the
second conjunct) and returns the distinguished bootstrap error rather
than an io failure; a second load of the now existing file with a non
empty remote_config_url succeeds. -/
theorem bootstrap_defaults (url : String) (hu : url ≠ "") :
    parse_config none =
      (some (.table (encodeConfig Config.new)), .error .bootstrapCreated) ∧
    Config.new =
      { remote_mihomo_binary_url := ""
        remote_config_url := ""
        mihomo_binary_path := "~/.local/bin/mihomo"
        mihomo_config_root := "~/.config/mihomo"
        user_systemd_root := "~/.config/systemd/user"
        mihomo_config :=
          { port := 7890, socks_port := 7891, allow_lan := some false,
            bind_address := some "*", mode := .Rule, log_level := .Info,
            ipv6 := some true, external_controller := some "0.0.0.0:9090",
            external_ui := some "ui", secret := none } } ∧
    parse_config
        (some (.table (encodeConfig { Config.new with remote_config_url := url }))) =
      (some (.table (encodeConfig { Config.new with remote_config_url := url })),
       .ok { Config.new with remote_config_url := url }) := by
  refine ⟨rfl, rfl, ?_⟩
  exact parse_config_valid
    (decodeConfig_encode _ (show (7890 : Nat) < 65536 by decide)
      (show (7891 : Nat) < 65536 by decide))
    hu (show ("~/.local/bin/mihomo" : String) ≠ "" by decide)
    (show ("~/.config/mihomo" : String) ≠ "" by decide)
    (show ("~/.config/systemd/user" : String) ≠ "" by decide)

/-- C4 witness: instantiation at a concrete non empty url. -/
theorem bootstrap_defaults_witness :
    parse_config
        (some (.table (encodeConfig { Config.new with remote_config_url := "https://example.org/c.yaml" }))) =
      (some (.table (encodeConfig { Config.new with remote_config_url := "https://example.org/c.yaml" })),
       .ok { Config.new with remote_config_url := "https://example.org/c.yaml" }) :=
  (bootstrap_defaults "https://example.org/c.yaml" (by decide)).2.2

/-- C6: serializing a settings value (Config::write) and parsing the
written document back (Config::setup_from) reproduces the value field
for field, including the optional fields and the enum fields; modelled
at the TOML value level, with the u16 port ranges as hypotheses. -/
theorem settings_roundtrip (c : Config) (hp : c.mihomo_config.port < 65536)
    (hs : c.mihomo_config.socks_port < 65536) :
    decodeConfig (.table (encodeConfig c)) = .ok c :=
  decodeConfig_encode c hp hs

/-- C6 witness: round trip of the default settings, which exercise an
absent optional field (secret), present optional fields and both enums. -/
theorem settings_roundtrip_witness :
    decodeConfig (.table (encodeConfig Config.new)) = .ok Config.new :=
  settings_roundtrip Config.new (by decide) (by decide)

/-- C9 counterexample: deserialization of the mode enum accepts the
Rust variant name Global in addition to the lowercase alias global, so
the set of accepted strings is not exactly global, rule, direct as the
claim states. -/
theorem enum_wire_counterexample :
    MihomoMode.fromWire "Global" = some MihomoMode.Global ∧
    ("Global" : String) ∉ (["global", "rule", "direct"] : List String) :=
  ⟨rfl, by decide⟩

/-- C9 amended: Mode and LogLevel are closed sets whose accepted wire
strings are exactly the lowercase aliases plus the Rust variant names
(global, Global, rule, Rule, direct, Direct; silent, Silent, error,
Error, warning, Warning, info, Info, debug, Debug); any other string is
rejected with an error carrying the raw value; serialization emits
exactly the lowercase strings. -/
theorem enum_wire_sets :
    (∀ s, (MihomoMode.fromWire s).isSome ↔
      s ∈ (["global", "Global", "rule", "Rule", "direct", "Direct"] : List String)) ∧
    (∀ s, (MihomoLogLevel.fromWire s).isSome ↔
      s ∈ (["silent", "Silent", "error", "Error", "warning", "Warning",
            "info", "Info", "debug", "Debug"] : List String)) ∧
    (∀ s, MihomoMode.fromWire s = none →
      decodeOptMode (YamlValue.str s) = .error ("unknown variant " ++ s)) ∧
    (∀ s, MihomoLogLevel.fromWire s = none →
      decodeOptLogLevel (YamlValue.str s) = .error ("unknown variant " ++ s)) ∧
    MihomoMode.toWire .Global = "global" ∧ MihomoMode.toWire .Rule = "rule" ∧
    MihomoMode.toWire .Direct = "direct" ∧
    MihomoLogLevel.toWire .Silent = "silent" ∧ MihomoLogLevel.toWire .Error = "error" ∧
    MihomoLogLevel.toWire .Warning = "warning" ∧ MihomoLogLevel.toWire .Info = "info" ∧
    MihomoLogLevel.toWire .Debug = "debug" := by
  refine ⟨?_, ?_, ?_, ?_, rfl, rfl, rfl, rfl, rfl, rfl, rfl, rfl⟩
  · intro s
    simp only [MihomoMode.fromWire]
    split_ifs with h₁ h₂ h₃ <;> simp_all <;> tauto
  · intro s
    simp only [MihomoLogLevel.fromWire]
    split_ifs <;> simp_all <;> tauto
  · intro s h
    simp [decodeOptMode, h]
  · intro s h
    simp [decodeOptLogLevel, h]

/-- C9 amended witness: a string outside the accepted set is rejected
with an error carrying the raw value. -/
theorem enum_wire_sets_witness :
    decodeOptMode (YamlValue.str "verbose") = .error ("unknown variant " ++ "verbose") :=
  enum_wire_sets.2.2.1 "verbose" (by decide)

/-- C10: a settings document containing, beyond the declared schema,
arbitrary unknown keys at top level and inside the daemon_config table
still parses successfully to the same Config, with the unknown keys
silently ignored, provided the declared fields are present with the
right types and the required fields are non empty. -/
theorem settings_unknown_keys_ignored (c : Config)
    (eIn eTop : List (String × TomlValue))
    (hp : c.mihomo_config.port < 65536) (hs : c.mihomo_config.socks_port < 65536)
    (hin : ∀ p ∈ eIn, p.1 ∉ mihomoKeys) (hinnd : (eIn.map Prod.fst).Nodup)
    (htop : ∀ p ∈ eTop, p.1 ∉ configKeys) (htopnd : (eTop.map Prod.fst).Nodup)
    (h₁ : c.remote_config_url ≠ "") (h₂ : c.mihomo_binary_path ≠ "")
    (h₃ : c.mihomo_config_root ≠ "") (h₄ : c.user_systemd_root ≠ "") :
    parse_config (some (settingsDocWithExtras c eIn eTop)) =
      (some (settingsDocWithExtras c eIn eTop), .ok c) :=
  parse_config_valid
    (decode_settingsDocWithExtras c eIn eTop hp hs hin hinnd htop htopnd) h₁ h₂ h₃ h₄

/-- C10 witness: concrete unknown keys at both levels are ignored. -/
theorem settings_unknown_keys_ignored_witness :
    parse_config
        (some (settingsDocWithExtras { Config.new with remote_config_url := "https://example.org/c.yaml" }
          [("redir_port", TomlValue.int 7892)] [("extra_setting", TomlValue.str "hello")])) =
      (some (settingsDocWithExtras { Config.new with remote_config_url := "https://example.org/c.yaml" }
          [("redir_port", TomlValue.int 7892)] [("extra_setting", TomlValue.str "hello")]),
       .ok { Config.new with remote_config_url := "https://example.org/c.yaml" }) :=
  settings_unknown_keys_ignored _ _ _ (by decide) (by decide) (by decide) (by decide)
    (by decide) (by decide) (by decide) (by decide) (by decide) (by decide)
